import Mathlib

/-!
Verification development for the handwritten-table converter backend
(`backend/server.py`).  The Python source is shallowly embedded: pure
helpers become Lean functions, the imperative worksheet loops become folds
over explicit write lists, the external AI capability is a parameter
(its single textual reply or raised error), and the document store is an
explicit list of records.  Machine-level concerns (base64 wire encoding,
byte streams) do not affect any verified property and are not modelled.
JSON numbers with a fraction or exponent are carried as their raw lexeme
(`Json.fnum`); the development never computes with them.
-/

/-- Characters stripped by Python `str.strip()` with no argument: the
full Unicode whitespace set of `str.isspace()` (U+0009-U+000D,
U+001C-U+001F, space, U+0085, U+00A0, U+1680, U+2000-U+200A, U+2028,
U+2029, U+202F, U+205F, U+3000). -/
def isPyWs (c : Char) : Bool :=
  let n := c.toNat
  decide ((0x09 ≤ n ∧ n ≤ 0x0d) ∨ (0x1c ≤ n ∧ n ≤ 0x1f) ∨ n = 0x20 ∨ n = 0x85
    ∨ n = 0xa0 ∨ n = 0x1680 ∨ (0x2000 ≤ n ∧ n ≤ 0x200a) ∨ n = 0x2028 ∨ n = 0x2029
    ∨ n = 0x202f ∨ n = 0x205f ∨ n = 0x3000)

/-- Remove the longest prefix of characters satisfying `p`
(left half of Python `str.strip`). -/
def lstripBy (p : Char → Bool) (cs : List Char) : List Char :=
  cs.dropWhile p

/-- Remove the longest suffix of characters satisfying `p`
(right half of Python `str.strip`). -/
def rstripBy (p : Char → Bool) (cs : List Char) : List Char :=
  (cs.reverse.dropWhile p).reverse

/-- Python `str.strip` driven by a character predicate. -/
def stripBy (p : Char → Bool) (cs : List Char) : List Char :=
  rstripBy p (lstripBy p cs)

/-- Python `str.strip()` (no argument form). -/
def pyStripWs (cs : List Char) : List Char :=
  stripBy isPyWs cs

/-- Python `str.strip(set)`: strip any character belonging to `set` from
both ends. -/
def pyStripChars (set : List Char) (cs : List Char) : List Char :=
  stripBy (fun c => set.contains c) cs

/-- Executable prefix test on character lists (Python `str.startswith`). -/
def isPre : List Char → List Char → Bool
  | [], _ => true
  | _ :: _, [] => false
  | a :: as, b :: bs => a == b && isPre as bs

/-- Executable contiguous-substring test (`needle in hay` for Python
strings). -/
def isSubList (needle : List Char) : List Char → Bool
  | [] => isPre needle []
  | c :: rest => isPre needle (c :: rest) || isSubList needle rest

/-- Substring test on strings. -/
def strContains (hay sub : String) : Bool :=
  isSubList sub.toList hay.toList

/-- Python values produced by `json.loads`.  Numbers written with a
fraction or exponent are kept as their raw lexeme in `fnum`. -/
inductive Json where
  | null
  | bool (b : Bool)
  | num (n : Int)
  | fnum (raw : String)
  | str (s : String)
  | arr (elems : List Json)
  | obj (fields : List (String × Json))
deriving Repr

/-- Whitespace accepted between JSON tokens by `json.loads`. -/
def isJsonWs (c : Char) : Bool :=
  c == ' ' || c == '\t' || c == '\n' || c == '\x0d'

/-- Skip inter-token whitespace. -/
def skipJsonWs (cs : List Char) : List Char :=
  cs.dropWhile isJsonWs

/-- Numeric value of a decimal digit character. -/
def digitVal (c : Char) : Nat :=
  c.toNat - '0'.toNat

/-- Read a non-empty run of decimal digits, returning its value, its
characters and the rest of the input. -/
def readDigits (cs : List Char) : Option (Nat × List Char × List Char) :=
  let ds := cs.takeWhile (fun c => c.isDigit)
  if ds.isEmpty then none
  else some (ds.foldl (fun a c => a * 10 + digitVal c) 0, ds, cs.drop ds.length)

/-- Decode four hexadecimal digits of a `\u` escape. -/
def readHex4 : List Char → Option (Nat × List Char)
  | a :: b :: c :: d :: rest =>
    let hv : Char → Option Nat := fun ch =>
      if ch.isDigit then some (digitVal ch)
      else if 'a' ≤ ch && ch ≤ 'f' then some (ch.toNat - 'a'.toNat + 10)
      else if 'A' ≤ ch && ch ≤ 'F' then some (ch.toNat - 'A'.toNat + 10)
      else none
    match hv a, hv b, hv c, hv d with
    | some x, some y, some z, some w => some (((x * 16 + y) * 16 + z) * 16 + w, rest)
    | _, _, _, _ => none
  | _ => none

/-- Parse the body of a JSON string after the opening quote, returning the
decoded characters and the input after the closing quote.  As in
`json.loads` (strict mode): an unescaped control character below U+0020
is rejected; a high-surrogate `\u` escape immediately followed by a
low-surrogate escape decodes as one astral character; a lone surrogate
escape is accepted by the decoder (it is mapped to U+0000 here, the one
value Python's lone surrogates have no counterpart for in Lean strings —
only acceptance, not the decoded value, matters downstream). -/
def parseStringBody : Nat → List Char → Option (List Char × List Char)
  | 0, _ => none
  | _, [] => none
  | fuel + 1, c :: rest =>
    if c == '"' then some ([], rest)
    else if c == '\\' then
      match rest with
      | [] => none
      | e :: rest2 =>
        let cont := fun (decoded : Char) (rem : List Char) =>
          (parseStringBody fuel rem).map (fun p => (decoded :: p.1, p.2))
        if e == '"' then cont '"' rest2
        else if e == '\\' then cont '\\' rest2
        else if e == '/' then cont '/' rest2
        else if e == 'b' then cont '\x08' rest2
        else if e == 'f' then cont '\x0c' rest2
        else if e == 'n' then cont '\n' rest2
        else if e == 'r' then cont '\x0d' rest2
        else if e == 't' then cont '\t' rest2
        else if e == 'u' then
          match readHex4 rest2 with
          | some (n, rest3) =>
            if decide (0xd800 ≤ n ∧ n ≤ 0xdbff) then
              match rest3 with
              | '\\' :: 'u' :: rest4 =>
                (match readHex4 rest4 with
                 | some (m, rest5) =>
                   if decide (0xdc00 ≤ m ∧ m ≤ 0xdfff) then
                     cont (Char.ofNat (0x10000 + (n - 0xd800) * 0x400 + (m - 0xdc00))) rest5
                   else cont (Char.ofNat n) rest3
                 | none => cont (Char.ofNat n) rest3)
              | _ => cont (Char.ofNat n) rest3
            else cont (Char.ofNat n) rest3
          | none => none
        else none
    else if decide (c.toNat < 0x20) then none
    else (parseStringBody fuel rest).map (fun p => (c :: p.1, p.2))

/-- Leading-zero test of the JSON number grammar: the integer part is a
single `0` or starts with a nonzero digit, so `01` is rejected. -/
def leadZero : List Char → Bool
  | '0' :: _ :: _ => true
  | _ => false

/-- Parse a JSON number after an optional leading minus sign.  Integers
become `Json.num`; the presence of a fraction or exponent yields
`Json.fnum` carrying the raw lexeme.  A leading zero before further
digits is rejected, as by `json.loads`. -/
def parseNumberAfterSign (neg : Bool) (cs : List Char) : Option (Json × List Char) :=
  match readDigits cs with
  | none => none
  | some (n, intDs, rest) =>
    if leadZero intDs then none else
    match rest with
    | '.' :: rest2 =>
      match readDigits rest2 with
      | none => none
      | some (_, fracDs, rest3) =>
        let expPart : Option (List Char × List Char) :=
          match rest3 with
          | e :: rest4 =>
            if e == 'e' || e == 'E' then
              match rest4 with
              | s :: rest5 =>
                if s == '+' || s == '-' then
                  (readDigits rest5).map (fun p => (e :: s :: p.2.1, p.2.2))
                else (readDigits rest4).map (fun p => (e :: p.2.1, p.2.2))
              | [] => none
            else some ([], rest3)
          | [] => some ([], rest3)
        match expPart with
        | none => none
        | some (expDs, rest') =>
          let lexeme := (if neg then [ '-' ] else []) ++ intDs ++ '.' :: fracDs ++ expDs
          some (Json.fnum ⟨lexeme⟩, rest')
    | e :: rest2 =>
      if e == 'e' || e == 'E' then
        match rest2 with
        | s :: rest3 =>
          if s == '+' || s == '-' then
            match readDigits rest3 with
            | none => none
            | some (_, expDs, rest4) =>
              some (Json.fnum ⟨(if neg then [ '-' ] else []) ++ intDs ++ e :: s :: expDs⟩, rest4)
          else
            match readDigits rest2 with
            | none => none
            | some (_, expDs, rest4) =>
              some (Json.fnum ⟨(if neg then [ '-' ] else []) ++ intDs ++ e :: expDs⟩, rest4)
        | [] => none
      else some (Json.num (if neg then -(n : Int) else (n : Int)), rest)
    | [] => some (Json.num (if neg then -(n : Int) else (n : Int)), [])

mutual

/-- Parse one JSON value (model of the grammar accepted by
`json.loads`, including its default `NaN`, `Infinity` and `-Infinity`
constants, carried as `fnum` with their Python `str()` renderings). -/
def parseValue : Nat → List Char → Option (Json × List Char)
  | 0, _ => none
  | fuel + 1, cs =>
    match cs with
    | 'n' :: 'u' :: 'l' :: 'l' :: rest => some (Json.null, rest)
    | 't' :: 'r' :: 'u' :: 'e' :: rest => some (Json.bool true, rest)
    | 'f' :: 'a' :: 'l' :: 's' :: 'e' :: rest => some (Json.bool false, rest)
    | 'N' :: 'a' :: 'N' :: rest => some (Json.fnum "nan", rest)
    | 'I' :: 'n' :: 'f' :: 'i' :: 'n' :: 'i' :: 't' :: 'y' :: rest =>
      some (Json.fnum "inf", rest)
    | '"' :: rest => (parseStringBody (rest.length + 1) rest).map (fun p => (Json.str ⟨p.1⟩, p.2))
    | '-' :: 'I' :: 'n' :: 'f' :: 'i' :: 'n' :: 'i' :: 't' :: 'y' :: rest =>
      some (Json.fnum "-inf", rest)
    | '-' :: rest => parseNumberAfterSign true rest
    | '[' :: rest =>
      let rest := skipJsonWs rest
      (match rest with
       | ']' :: rest2 => some (Json.arr [], rest2)
       | _ => (parseElems fuel rest).map (fun p => (Json.arr p.1, p.2)))
    | '\x7b' :: rest =>
      let rest := skipJsonWs rest
      (match rest with
       | '\x7d' :: rest2 => some (Json.obj [], rest2)
       | _ => (parseFields fuel rest).map (fun p => (Json.obj p.1, p.2)))
    | c :: rest =>
      if c.isDigit then parseNumberAfterSign false (c :: rest) else none
    | [] => none

/-- Parse a non-empty comma-separated list of array elements up to the
closing bracket. -/
def parseElems : Nat → List Char → Option (List Json × List Char)
  | 0, _ => none
  | fuel + 1, cs =>
    match parseValue fuel cs with
    | none => none
    | some (v, rest) =>
      match skipJsonWs rest with
      | ',' :: rest2 => (parseElems fuel (skipJsonWs rest2)).map (fun p => (v :: p.1, p.2))
      | ']' :: rest2 => some ([v], rest2)
      | _ => none

/-- Parse a non-empty comma-separated list of object members up to the
closing brace. -/
def parseFields : Nat → List Char → Option (List (String × Json) × List Char)
  | 0, _ => none
  | fuel + 1, cs =>
    match cs with
    | '"' :: rest =>
      match parseStringBody (rest.length + 1) rest with
      | none => none
      | some (key, rest2) =>
        match skipJsonWs rest2 with
        | ':' :: rest3 =>
          match parseValue fuel (skipJsonWs rest3) with
          | none => none
          | some (v, rest4) =>
            match skipJsonWs rest4 with
            | ',' :: rest5 => (parseFields fuel (skipJsonWs rest5)).map
                (fun p => ((⟨key⟩, v) :: p.1, p.2))
            | '\x7d' :: rest5 => some ([(⟨key⟩, v)], rest5)
            | _ => none
        | _ => none
    | _ => none

end

/-- Model of Python `json.loads` on a character list: parse one value and
require only trailing whitespace after it. -/
def pyJsonLoads (cs : List Char) : Option Json :=
  match parseValue (cs.length + 1) (skipJsonWs cs) with
  | none => none
  | some (v, rest) => if (skipJsonWs rest).isEmpty then some v else none

/-- Escape one character for a Python string repr quoted by `q`. -/
def pyReprEscapeChar (q : Char) (c : Char) : List Char :=
  if c == '\\' then [ '\\', '\\' ]
  else if c == q then [ '\\', q ]
  else if c == '\n' then [ '\\', 'n' ]
  else if c == '\x0d' then [ '\\', 'r' ]
  else if c == '\t' then [ '\\', 't' ]
  else [c]

/-- Python `repr` of a string: single quotes, or double quotes when the
text contains a single quote but no double quote. -/
def pyReprStr (s : String) : String :=
  if s.toList.contains '\x27' && !(s.toList.contains '"') then
    "\"" ++ ⟨s.toList.flatMap (pyReprEscapeChar '"')⟩ ++ "\""
  else
    "\x27" ++ ⟨s.toList.flatMap (pyReprEscapeChar '\x27')⟩ ++ "\x27"

mutual

/-- Python `repr` of a parsed JSON value. -/
def pyRepr : Json → String
  | Json.null => "None"
  | Json.bool true => "True"
  | Json.bool false => "False"
  | Json.num n => toString n
  | Json.fnum raw => raw
  | Json.str s => pyReprStr s
  | Json.arr l => "[" ++ pyReprList l ++ "]"
  | Json.obj l => "\x7b" ++ pyReprFields l ++ "\x7d"

/-- Comma-joined reprs of list elements. -/
def pyReprList : List Json → String
  | [] => ""
  | [v] => pyRepr v
  | v :: rest => pyRepr v ++ ", " ++ pyReprList rest

/-- Comma-joined reprs of dict members. -/
def pyReprFields : List (String × Json) → String
  | [] => ""
  | [(k, v)] => pyReprStr k ++ ": " ++ pyRepr v
  | (k, v) :: rest => pyReprStr k ++ ": " ++ pyRepr v ++ ", " ++ pyReprFields rest

end

/-- Python `str()` of a parsed JSON value, as used by the worksheet width
loop (`str(cell.value)`); strings render without quotes, `None` renders as
the four characters `None`. -/
def pyStr : Json → String
  | Json.str s => s
  | v => pyRepr v

/-- Outcome of the single external AI-capability call made per
extraction: either one textual reply or a raised fault (network, auth,
quota, timeout — the code treats them all through one `except`). -/
inductive AIOutcome where
  | respond (text : String)
  | raised (error : String)

/-- Dict returned by `extract_table_from_image` (`success`, `message`,
`table_data`). -/
structure ExtractResult where
  success : Bool
  message : String
  table_data : Option Json
deriving Repr

/-- Fence-marker character set of `str.strip('`json')` at
`server.py:108`. -/
def fenceChars : List Char := [ '`', 'j', 's', 'o', 'n' ]

/-- Validation test at `server.py:111`:
`isinstance(table_data, list) and table_data` (truthiness of a list is
non-emptiness). -/
def isNonEmptyList : Json → Bool
  | Json.arr (_ :: _) => true
  | _ => false

/-- Text pipeline of `server.py:106-109`: strip whitespace, drop fence
markers when the reply starts with three backticks, strip whitespace
again before `json.loads`. -/
def normalizeText (response : String) : List Char :=
  let t0 := pyStripWs response.toList
  let t1 := if isPre [ '`', '`', '`' ] t0
            then pyStripChars [ '`' ] (pyStripChars fenceChars t0)
            else t0
  pyStripWs t1

/-- Lines 105-121 of `server.py`: normalize the reply, parse it as JSON
and validate it.  A parse failure is caught by the inner
`except json.JSONDecodeError`; the `ValueError` raised by the validation
is caught by the outer `except Exception`, whose message is
`"Error: " + str(e)`. -/
def processResponse (response : String) : ExtractResult :=
  match pyJsonLoads (normalizeText response) with
  | none => ⟨false, "Failed to parse extracted data", none⟩
  | some v =>
    if isNonEmptyList v then ⟨true, "Table extracted successfully", some v⟩
    else ⟨false, "Error: Invalid table data format", none⟩

/-- Placeholder grid returned in mock mode (`server.py:77-81`). -/
def mockTable : Json :=
  Json.arr [Json.arr [Json.str "Name", Json.str "Age", Json.str "City"],
            Json.arr [Json.str "John", Json.str "25", Json.str "NYC"],
            Json.arr [Json.str "Alice", Json.str "30", Json.str "LA"]]

/-- `extract_table_from_image` (`server.py:72-125`).  `emergentAvailable`
is the module-level `EMERGENT_AVAILABLE` flag (true iff the integration
library imported).  `key` is the `EMERGENT_LLM_KEY` environment value; the
code forwards it verbatim to the external `LlmChat` client and never
inspects it, so it does not influence the result — the external call's
behaviour is the `ai` parameter.  A fault raised anywhere in the live path
is caught by the outer `except Exception` as `"Error: " + str(e)`. -/
def extract_table_from_image (emergentAvailable : Bool) (key : Option String)
    (ai : AIOutcome) : ExtractResult :=
  if !emergentAvailable then
    ⟨true, "Table extracted successfully (Mock data)", some mockTable⟩
  else
    match ai with
    | AIOutcome.raised e => ⟨false, "Error: " ++ e, none⟩
    | AIOutcome.respond text => processResponse text

/-- Pydantic coercion of one cell of `extracted_data` to `str`. -/
def cellString : Json → Option String
  | Json.str s => some s
  | _ => none

/-- Pydantic coercion of one row to `List[str]`. -/
def rowStrings : Json → Option (List String)
  | Json.arr cells => cells.mapM cellString
  | _ => none

/-- Pydantic coercion of a parsed value to `List[List[str]]`, the declared
type of `TableData.extracted_data`; a value outside that type makes the
model constructor raise. -/
def gridStrings : Json → Option (List (List String))
  | Json.arr rows => rows.mapM rowStrings
  | _ => none

/-- Persisted extraction record (`TableData` model, `server.py:54-58`).
The generated UUID and the creation timestamp enter as explicit inputs of
the request model. -/
structure TableData where
  id : String
  filename : String
  extracted_data : List (List String)
  created_at : Nat
deriving Repr, DecidableEq

/-- Response body of the upload endpoint (`ProcessingResult`,
`server.py:60-64`). -/
structure ProcessingResult where
  success : Bool
  message : String
  table_data : Option (List (List String)) := none
  processing_id : Option String := none
deriving Repr, DecidableEq

/-- An HTTP error response (`HTTPException`, or the framework's 500 reply
to an unhandled fault). -/
structure HTTPError where
  status_code : Nat
  detail : String
deriving Repr, DecidableEq

/-- Observable effects and response of one `POST /api/upload-image`
request. -/
structure UploadOutcome where
  response : Except HTTPError ProcessingResult
  aiCalled : Bool
  inserted : Option TableData

/-- `upload_image` (`server.py:170-184`).  `contentType` and `filename`
come from the multipart file; `newId` and `now` are the UUID and
timestamp the `TableData` defaults generate; the AI capability call is
reached exactly on the live extraction path.  A `table_data` value
outside `List[List[str]]` makes the pydantic constructor raise, which the
framework surfaces as a 500 with no insert. -/
def upload_image (contentType : String) (filename : String)
    (emergentAvailable : Bool) (key : Option String) (ai : AIOutcome)
    (newId : String) (now : Nat) : UploadOutcome :=
  if !(isPre "image/".toList contentType.toList) then
    { response := Except.error ⟨400, "Only image files are allowed"⟩
      aiCalled := false
      inserted := none }
  else
    let result := extract_table_from_image emergentAvailable key ai
    let called := emergentAvailable
    if result.success then
      match result.table_data.bind gridStrings with
      | some grid =>
        let record : TableData := ⟨newId, filename, grid, now⟩
        { response := Except.ok ⟨true, result.message, some grid, some newId⟩
          aiCalled := called
          inserted := some record }
      | none =>
        { response := Except.error ⟨500, "Internal Server Error"⟩
          aiCalled := called
          inserted := none }
    else
      { response := Except.ok ⟨false, result.message, none, none⟩
        aiCalled := called
        inserted := none }

/-- `db.table_extractions.find_one({"id": processing_id})` over an
explicit store. -/
def find_one (store : List TableData) (pid : String) : Option TableData :=
  store.find? (fun r => r.id == pid)

/-- Styling state of one written worksheet cell: its value, the thin
border and centered alignment applied to every cell, and whether the
header font/fill of row 1 was applied. -/
structure WsCell where
  value : Json
  hasBorder : Bool
  centered : Bool
  headerStyled : Bool
deriving Repr

/-- One `worksheet.cell(row=..., column=..., value=...)` call together
with the styling the loop body applies to it. -/
structure CellWrite where
  row : Nat
  col : Nat
  value : Json
  header : Bool
deriving Repr

/-- Cell writes performed by the nested loops at `server.py:138-145`:
`enumerate(table_data, 1)` over rows, `enumerate(row_data, 1)` over
cells, header styling exactly when `row_idx == 1`. -/
def sheetWrites (table_data : List (List Json)) : List CellWrite :=
  (List.enumFrom 1 table_data).flatMap (fun p =>
    (List.enumFrom 1 p.2).map (fun q =>
      { row := p.1, col := q.1, value := q.2, header := p.1 == 1 }))

/-- Mutable cell dictionary of the worksheet, as a map from (row, column)
to the stored cell. -/
def WsCells := Nat → Nat → Option WsCell

/-- Empty worksheet: no cell stored anywhere. -/
def emptyCells : WsCells := fun _ _ => none

/-- State update of one loop iteration once the value has been accepted
by the cell binder: store it and apply border, alignment and (for row 1)
header styling. -/
def applyWrite (cells : WsCells) (w : CellWrite) : WsCells :=
  fun r c =>
    if r = w.row ∧ c = w.col then
      some { value := w.value, hasBorder := true, centered := true, headerStyled := w.header }
    else cells r c

/-- Faults the worksheet library raises during cell assignment:
`IllegalCharacterError` for XML-illegal control characters in a string,
`ValueError` (`Cannot convert ... to Excel`) for values of unsupported
type such as lists and dicts. -/
inductive PyError where
  | illegalCharacter
  | cannotConvert
deriving Repr, DecidableEq

/-- Characters the worksheet library refuses inside cell strings
(`ILLEGAL_CHARACTERS_RE`): U+0000-U+0008, U+000B, U+000C,
U+000E-U+001F. -/
def isXmlIllegal (c : Char) : Bool :=
  let n := c.toNat
  decide (n ≤ 0x08 ∨ n = 0x0b ∨ n = 0x0c ∨ (0x0e ≤ n ∧ n ≤ 0x1f))

/-- String admission of the cell binder (`check_string`): raise on an
XML-illegal character, silently truncate to 32767 characters. -/
def checkString (s : String) : Except PyError String :=
  if s.toList.any isXmlIllegal then Except.error PyError.illegalCharacter
  else Except.ok ⟨s.toList.take 32767⟩

/-- Value admission of one `worksheet.cell(...)` call (`_bind_value`):
`None`, booleans and numbers are stored as given; strings pass
`checkString`; list and dict values raise `ValueError`. -/
def bindValue : Json → Except PyError Json
  | Json.str s => (checkString s).map Json.str
  | Json.arr _ => Except.error PyError.cannotConvert
  | Json.obj _ => Except.error PyError.cannotConvert
  | v => Except.ok v

/-- The write loop with fault propagation: bind each value in order and
store it, or stop at the first raised fault — `create_excel_file` has no
handler around this loop, so the fault reaches its caller. -/
def writeAll (cells : WsCells) : List CellWrite → Except PyError WsCells
  | [] => Except.ok cells
  | w :: rest =>
    match bindValue w.value with
    | Except.error e => Except.error e
    | Except.ok v => writeAll (applyWrite cells ⟨w.row, w.col, v, w.header⟩) rest

/-- Worksheet cell state produced by the write loop, or its first
fault. -/
def buildCellsE (table_data : List (List Json)) : Except PyError WsCells :=
  writeAll emptyCells (sheetWrites table_data)

/-- Worksheet cell state after the write loop when every value binds to
itself (legal grids); `buildCellsE` coincides with it there. -/
def buildCells (table_data : List (List Json)) : WsCells :=
  (sheetWrites table_data).foldl applyWrite emptyCells

/-- Greatest populated column index (`worksheet.max_column`): the longest
row length, because row `i` creates cells in columns `1..len(row)`. -/
def maxCol (table_data : List (List Json)) : Nat :=
  (table_data.map List.length).foldr max 0

/-- Least populated row index (`worksheet.min_row`); 1 when no cell
exists (the fresh-worksheet default dimension). -/
def minRow (table_data : List (List Json)) : Nat :=
  match table_data.findIdx? (fun row => !row.isEmpty) with
  | some i => i + 1
  | none => 1

/-- Greatest populated row index (`worksheet.max_row`); 1 when no cell
exists. -/
def maxRow (table_data : List (List Json)) : Nat :=
  match table_data.reverse.findIdx? (fun row => !row.isEmpty) with
  | some j => table_data.length - j
  | none => 1

/-- Rendering used by the width loop: `str(cell.value)`, where a position
inside the iterated rectangle without a stored cell is materialised by
`worksheet.columns` as an empty cell whose value is `None`, so it renders
as the four characters `None`. -/
def renderAt (cells : WsCells) (r c : Nat) : String :=
  match cells r c with
  | some cell => pyStr cell.value
  | none => "None"

/-- Inner loop of `server.py:147-155`: walk the cells of column `c` over
rows `rlo..rhi` keeping `max_length`, updating it whenever
`len(str(cell.value)) > max_length` (the `try` body never raises, since
`str` and `len` are total on these values). -/
def colMaxLenLoop (cells : WsCells) (rlo rhi c : Nat) : Nat :=
  (List.range' rlo (rhi + 1 - rlo)).foldl
    (fun m r => if (renderAt cells r c).length > m then (renderAt cells r c).length else m) 0

/-- Result of `create_excel_file`: the single sheet's title, its cell
state and the per-column widths assigned by the width loop
(`min(max_length + 2, 50)` for each column `1..max_column`). -/
structure Worksheet where
  title : String
  cells : WsCells
  widths : Nat → Option Nat

/-- `create_excel_file` (`server.py:127-161`).  The byte serialisation of
the finished workbook (`workbook.save`) is not modelled; the worksheet
content it serialises is.  A fault raised by a cell assignment
propagates out of the function (there is no handler around the write
loop; the `try` in the width loop guards code that cannot raise).  The
`filename` argument is unused by the source function as well. -/
def create_excel_file (table_data : List (List Json)) (filename : String) :
    Except PyError Worksheet :=
  (buildCellsE table_data).map (fun cells =>
    { title := "Extracted Table"
      cells := cells
      widths := fun c =>
        if 1 ≤ c ∧ c ≤ maxCol table_data then
          some (min (colMaxLenLoop cells (minRow table_data) (maxRow table_data) c + 2) 50)
        else none })

/-- Stem before the last dot: `filename.rsplit('.', 1)[0]`. -/
def rsplitStem (s : String) : String :=
  let cs := s.toList
  if cs.contains '.' then ⟨((cs.reverse.dropWhile (fun c => c != '.')).drop 1).reverse⟩
  else s

/-- Observable outcome of one `POST /api/generate-excel/{processing_id}`
request: the HTTP response (worksheet plus download filename on success)
and whether a spreadsheet was built at all. -/
structure GenerateOutcome where
  response : Except HTTPError (Worksheet × String)
  built : Bool

/-- `generate_excel` (`server.py:186-199`) over an explicit store.  Cells
of a persisted record are strings, re-entering the builder as JSON string
values; a fault raised by the builder is unhandled and surfaces as the
framework's 500 response. -/
def generate_excel (store : List TableData) (pid : String) : GenerateOutcome :=
  match find_one store pid with
  | none =>
    { response := Except.error ⟨404, "Processing record not found"⟩, built := false }
  | some record =>
    match create_excel_file (record.extracted_data.map (fun row => row.map Json.str))
        record.filename with
    | Except.error _ =>
      { response := Except.error ⟨500, "Internal Server Error"⟩, built := true }
    | Except.ok ws =>
      { response := Except.ok (ws, rsplitStem record.filename ++ "_extracted.xlsx")
        built := true }

/-- Model of Python `json.dumps` for a string grid (default separators),
used to state round-trip properties about fenced AI replies. -/
def jsonEscapeChar (c : Char) : List Char :=
  if c == '"' then [ '\\', '"' ]
  else if c == '\\' then [ '\\', '\\' ]
  else if c == '\n' then [ '\\', 'n' ]
  else if c == '\t' then [ '\\', 't' ]
  else if c == '\x0d' then [ '\\', 'r' ]
  else [c]

/-- JSON quoting of one cell. -/
def jsonQuote (s : String) : String :=
  "\"" ++ ⟨s.toList.flatMap jsonEscapeChar⟩ ++ "\""

/-- JSON text of one row. -/
def jsonDumpsRow (row : List String) : String :=
  "[" ++ ", ".intercalate (row.map jsonQuote) ++ "]"

/-- JSON text of a grid. -/
def jsonDumpsGrid (g : List (List String)) : String :=
  "[" ++ ", ".intercalate (g.map jsonDumpsRow) ++ "]"

/-- A grid's JSON text wrapped in a language-tagged fenced code block. -/
def wrapTagged (t : String) : String :=
  "```json\n" ++ t ++ "\n```"

/-- A grid's JSON text wrapped in a bare fenced code block. -/
def wrapBare (t : String) : String :=
  "```\n" ++ t ++ "\n```"

/-- First `n` characters of a string (Python slice `s[:n]`). -/
def firstChars (n : Nat) (s : String) : String :=
  ⟨s.toList.take n⟩

/-- Row count Python reports for a parsed table (`len(table_data)`). -/
def tableRows : Json → Nat
  | Json.arr l => l.length
  | _ => 0

/-- Column count Python reports for a parsed table
(`len(table_data[0])`). -/
def tableCols : Json → Nat
  | Json.arr (Json.arr r :: _) => r.length
  | _ => 0

/-- Sequence test of the phrase "each element must itself be a
sequence". -/
def isSeq : Json → Bool
  | Json.arr _ => true
  | _ => false

/-- Formalisation of the response class named by the error-handling
property: not valid JSON, or not a non-empty sequence of sequences. -/
def c1Bad (resp : String) : Bool :=
  match pyJsonLoads (normalizeText resp) with
  | none => true
  | some v =>
    match v with
    | Json.arr l => l.isEmpty || !(l.all isSeq)
    | _ => true

lemma toList_append (a b : String) : (a ++ b).toList = a.toList ++ b.toList :=
  String.data_append a b

lemma extract_success_table (avail : Bool) (key : Option String) (ai : AIOutcome)
    (h : (extract_table_from_image avail key ai).success = true) :
    ∃ v, (extract_table_from_image avail key ai).table_data = some v
      ∧ isNonEmptyList v = true := by
  cases avail with
  | false => exact ⟨mockTable, rfl, rfl⟩
  | true =>
    cases ai with
    | raised e => simp [extract_table_from_image] at h
    | respond text =>
      have hE : extract_table_from_image true key (AIOutcome.respond text)
          = processResponse text := rfl
      rw [hE] at h ⊢
      unfold processResponse at h ⊢
      cases hp : pyJsonLoads (normalizeText text) with
      | none => rw [hp] at h; simp at h
      | some v =>
        rw [hp] at h
        cases hv : isNonEmptyList v with
        | false => simp [hv] at h
        | true => exact ⟨v, by simp [hv], hv⟩

lemma gridStrings_nonempty (v : Json) (g : List (List String))
    (h1 : isNonEmptyList v = true) (h2 : gridStrings v = some g) : g ≠ [] := by
  cases v with
  | arr l =>
    cases l with
    | nil => simp [isNonEmptyList] at h1
    | cons r rest =>
      simp only [gridStrings, List.mapM_cons] at h2
      cases hr : rowStrings r with
      | none => rw [hr] at h2; simp at h2
      | some row =>
        rw [hr] at h2
        cases hm : rest.mapM rowStrings with
        | none => rw [hm] at h2; simp at h2
        | some rows =>
          rw [hm] at h2
          simp only [Option.pure_def, Option.bind_some, Option.bind_eq_bind] at h2
          cases h2; simp
  | null => simp [isNonEmptyList] at h1
  | bool b => simp [isNonEmptyList] at h1
  | num n => simp [isNonEmptyList] at h1
  | fnum raw => simp [isNonEmptyList] at h1
  | str s => simp [isNonEmptyList] at h1
  | obj fields => simp [isNonEmptyList] at h1

/-- Claim C1 (counterexample): the reply `[1, 2]` is valid JSON whose
elements are not sequences, so the claimed class contains it, yet
`extract_table_from_image` accepts it with `success=true` — the
validation at `server.py:111` checks only that the value is a non-empty
list, never that its elements are rows. -/
theorem c1_counterexample :
    c1Bad "[1, 2]" = true
    ∧ (extract_table_from_image true none (AIOutcome.respond "[1, 2]")).success = true
    ∧ (extract_table_from_image true none (AIOutcome.respond "[1, 2]")).table_data
        = some (Json.arr [Json.num 1, Json.num 2]) :=
  ⟨rfl, rfl, rfl⟩

/-- Claim C1 (amended): for every AI reply that is not valid JSON or
whose parsed value is not a non-empty list — with no requirement on the
elements — `extract_table_from_image` returns `success=false` with
`table_data=none`; both failure paths are caught (`JSONDecodeError` by
the inner handler, the validation `ValueError` by the outer one), so no
exception reaches the caller, which the totality of this model
reflects. -/
theorem c1_amended (resp : String) (key : Option String)
    (h : ∀ v, pyJsonLoads (normalizeText resp) = some v → isNonEmptyList v = false) :
    (extract_table_from_image true key (AIOutcome.respond resp)).success = false
    ∧ (extract_table_from_image true key (AIOutcome.respond resp)).table_data = none := by
  have hE : extract_table_from_image true key (AIOutcome.respond resp)
      = processResponse resp := rfl
  rw [hE]
  unfold processResponse
  cases hp : pyJsonLoads (normalizeText resp) with
  | none => exact ⟨rfl, rfl⟩
  | some v => simp [h v hp]

/-- Claim C1 (witness): the amended theorem applied to the non-JSON reply
`nope`. -/
theorem c1_witness :
    (extract_table_from_image true none (AIOutcome.respond "nope")).success = false
    ∧ (extract_table_from_image true none (AIOutcome.respond "nope")).table_data = none :=
  c1_amended "nope" none (fun v hv => by
    rw [show pyJsonLoads (normalizeText "nope") = none from rfl] at hv
    exact Option.noConfusion hv)

/-- Claim C4 (counterexample): with the integration library available and
the credential absent (`key = none`), a live extraction still runs — its
result is the genuine grid and the genuine message, not the fixed
placeholder grid and not the mock-tagged message, so credential absence
does not trigger mock mode. -/
theorem c4_counterexample :
    (extract_table_from_image true none (AIOutcome.respond "[[\"x\"]]")).table_data
        = some (Json.arr [Json.arr [Json.str "x"]])
    ∧ (extract_table_from_image true none (AIOutcome.respond "[[\"x\"]]")).message
        = "Table extracted successfully"
    ∧ Json.arr [Json.arr [Json.str "x"]] ≠ mockTable
    ∧ ("Table extracted successfully" : String)
        ≠ "Table extracted successfully (Mock data)" := by
  refine ⟨rfl, rfl, ?_, by decide⟩
  intro h
  have h2 := congrArg tableRows h
  simp [tableRows, mockTable] at h2

/-- Claim C4 (amended): mock mode is triggered by the integration library
being unavailable (`EMERGENT_AVAILABLE = False`), not by credential
absence; in that mode extract returns `success=true` with the fixed
placeholder grid and the message `Table extracted successfully (Mock
data)`, which differs from the message of every genuine successful
extraction. -/
theorem c4_amended (key key2 : Option String) (ai ai2 : AIOutcome)
    (h : (extract_table_from_image true key2 ai2).success = true) :
    extract_table_from_image false key ai
      = ⟨true, "Table extracted successfully (Mock data)", some mockTable⟩
    ∧ (extract_table_from_image true key2 ai2).message = "Table extracted successfully"
    ∧ ("Table extracted successfully" : String)
        ≠ "Table extracted successfully (Mock data)" := by
  refine ⟨rfl, ?_, by decide⟩
  cases ai2 with
  | raised e => simp [extract_table_from_image] at h
  | respond text =>
    have hE : extract_table_from_image true key2 (AIOutcome.respond text)
        = processResponse text := rfl
    rw [hE] at h ⊢
    unfold processResponse at h ⊢
    cases hp : pyJsonLoads (normalizeText text) with
    | none => rw [hp] at h; simp at h
    | some w =>
      rw [hp] at h
      cases hw : isNonEmptyList w with
      | false => simp [hw] at h
      | true => simp [hw]

/-- Claim C4 (witness): the amended theorem at a concrete live success
and a concrete mock call. -/
theorem c4_witness :
    extract_table_from_image false none (AIOutcome.respond "y")
      = ⟨true, "Table extracted successfully (Mock data)", some mockTable⟩
    ∧ (extract_table_from_image true none
        (AIOutcome.respond "[[\"x\"]]")).message = "Table extracted successfully"
    ∧ ("Table extracted successfully" : String)
        ≠ "Table extracted successfully (Mock data)" :=
  c4_amended none none (AIOutcome.respond "y") (AIOutcome.respond "[[\"x\"]]") rfl


lemma upload_image_spec (contentType filename : String) (emergentAvailable : Bool)
    (key : Option String) (ai : AIOutcome) (newId : String) (now : Nat) :
    (isPre "image/".toList contentType.toList = false
      ∧ upload_image contentType filename emergentAvailable key ai newId now
          = ⟨Except.error ⟨400, "Only image files are allowed"⟩, false, none⟩)
    ∨ (isPre "image/".toList contentType.toList = true
      ∧ (extract_table_from_image emergentAvailable key ai).success = true
      ∧ ∃ grid, (extract_table_from_image emergentAvailable key ai).table_data.bind gridStrings
            = some grid
        ∧ upload_image contentType filename emergentAvailable key ai newId now
            = ⟨Except.ok ⟨true, (extract_table_from_image emergentAvailable key ai).message,
                some grid, some newId⟩,
               emergentAvailable, some ⟨newId, filename, grid, now⟩⟩)
    ∨ (isPre "image/".toList contentType.toList = true
      ∧ (extract_table_from_image emergentAvailable key ai).success = true
      ∧ (extract_table_from_image emergentAvailable key ai).table_data.bind gridStrings = none
      ∧ upload_image contentType filename emergentAvailable key ai newId now
          = ⟨Except.error ⟨500, "Internal Server Error"⟩, emergentAvailable, none⟩)
    ∨ (isPre "image/".toList contentType.toList = true
      ∧ (extract_table_from_image emergentAvailable key ai).success = false
      ∧ upload_image contentType filename emergentAvailable key ai newId now
          = ⟨Except.ok ⟨false, (extract_table_from_image emergentAvailable key ai).message,
              none, none⟩,
             emergentAvailable, none⟩) := by
  cases hct : isPre "image/".toList contentType.toList with
  | false =>
    refine Or.inl ⟨rfl, ?_⟩
    simp only [upload_image]
    rw [hct]
    rfl
  | true =>
    cases hs : (extract_table_from_image emergentAvailable key ai).success with
    | true =>
      cases hg : (extract_table_from_image emergentAvailable key ai).table_data.bind gridStrings with
      | some grid =>
        refine Or.inr (Or.inl ⟨rfl, rfl, grid, rfl, ?_⟩)
        simp only [upload_image]
        rw [hct, hs, hg]
        rfl
      | none =>
        refine Or.inr (Or.inr (Or.inl ⟨rfl, rfl, rfl, ?_⟩))
        simp only [upload_image]
        rw [hct, hs, hg]
        rfl
    | false =>
      refine Or.inr (Or.inr (Or.inr ⟨rfl, rfl, ?_⟩))
      simp only [upload_image]
      rw [hct, hs]
      rfl

/-- Claim C5 (confirmed): an upload whose content type does not start
with `image/` is rejected with HTTP 400 before `extract_table_from_image`
runs — no AI-capability call happens and nothing is inserted into the
table store. -/
theorem c5_upload_rejects_non_image (contentType filename : String)
    (emergentAvailable : Bool) (key : Option String) (ai : AIOutcome)
    (newId : String) (now : Nat)
    (h : isPre "image/".toList contentType.toList = false) :
    upload_image contentType filename emergentAvailable key ai newId now
      = { response := Except.error ⟨400, "Only image files are allowed"⟩
          aiCalled := false
          inserted := none } := by
  rcases upload_image_spec contentType filename emergentAvailable key ai newId now with
    ⟨_, heq⟩ | ⟨hct, _⟩ | ⟨hct, _⟩ | ⟨hct, _⟩
  · exact heq
  all_goals rw [h] at hct; exact Bool.noConfusion hct

/-- Claim C5 (witness): the rejection theorem at a `text/plain` upload. -/
theorem c5_witness :
    isPre "image/".toList "text/plain".toList = false
    ∧ upload_image "text/plain" "notes.txt" true none (AIOutcome.respond "x") "id1" 3
        = { response := Except.error ⟨400, "Only image files are allowed"⟩
            aiCalled := false
            inserted := none } :=
  ⟨rfl, c5_upload_rejects_non_image "text/plain" "notes.txt" true none
    (AIOutcome.respond "x") "id1" 3 rfl⟩

/-- Claim C6 (confirmed): requesting an export for a processing id that
is not in the table store yields HTTP 404 and `create_excel_file` is
never invoked. -/
theorem c6_export_unknown_id (store : List TableData) (pid : String)
    (h : find_one store pid = none) :
    generate_excel store pid
      = { response := Except.error ⟨404, "Processing record not found"⟩
          built := false } := by
  unfold generate_excel
  rw [h]

/-- Claim C6 (witness): the not-found theorem on a one-record store and a
foreign id. -/
theorem c6_witness :
    find_one [⟨"abc", "scan.png", [["x"]], 5⟩] "zzz" = none
    ∧ generate_excel [⟨"abc", "scan.png", [["x"]], 5⟩] "zzz"
        = { response := Except.error ⟨404, "Processing record not found"⟩
            built := false } :=
  ⟨rfl, c6_export_unknown_id [⟨"abc", "scan.png", [["x"]], 5⟩] "zzz" rfl⟩

/-- Claim C7 (counterexample): on the unparsable reply
`this is not json`, the failure result's message is the fixed text
`Failed to parse extracted data` and does not contain the first 200
characters of the raw reply — the code logs the exception but never puts
any part of the raw response into the returned message. -/
theorem c7_counterexample :
    (extract_table_from_image true none
        (AIOutcome.respond "this is not json")).success = false
    ∧ (extract_table_from_image true none
        (AIOutcome.respond "this is not json")).message
        = "Failed to parse extracted data"
    ∧ strContains
        (extract_table_from_image true none
          (AIOutcome.respond "this is not json")).message
        (firstChars 200 "this is not json") = false :=
  ⟨rfl, rfl, rfl⟩

/-- Claim C7 (amended): on normalization failure the structured result
has `success=false`, `table_data=none`, and a fixed diagnostic message —
`Failed to parse extracted data` when JSON parsing failed,
`Error: Invalid table data format` when validation failed; the raw
response text is only logged, not carried in the result. -/
theorem c7_amended (resp : String) (key : Option String)
    (h : (processResponse resp).success = false) :
    (extract_table_from_image true key (AIOutcome.respond resp)).table_data = none
    ∧ (pyJsonLoads (normalizeText resp) = none →
        (extract_table_from_image true key (AIOutcome.respond resp)).message
          = "Failed to parse extracted data")
    ∧ (∀ v, pyJsonLoads (normalizeText resp) = some v →
        (extract_table_from_image true key (AIOutcome.respond resp)).message
          = "Error: Invalid table data format") := by
  have hE : extract_table_from_image true key (AIOutcome.respond resp)
      = processResponse resp := rfl
  rw [hE]
  unfold processResponse at h ⊢
  cases hp : pyJsonLoads (normalizeText resp) with
  | none => exact ⟨rfl, fun _ => rfl, fun v hv => Option.noConfusion hv⟩
  | some v =>
    rw [hp] at h
    cases hv : isNonEmptyList v with
    | false =>
      exact ⟨by simp [hv], fun hn => Option.noConfusion hn, fun w hw => by simp [hv]⟩
    | true => simp [hv] at h

/-- Claim C7 (witness): the amended theorem at the unparsable reply
`oops`. -/
theorem c7_witness :
    (extract_table_from_image true none (AIOutcome.respond "oops")).table_data = none
    ∧ (pyJsonLoads (normalizeText "oops") = none →
        (extract_table_from_image true none (AIOutcome.respond "oops")).message
          = "Failed to parse extracted data")
    ∧ (∀ v, pyJsonLoads (normalizeText "oops") = some v →
        (extract_table_from_image true none (AIOutcome.respond "oops")).message
          = "Error: Invalid table data format") :=
  c7_amended "oops" none rfl

/-- Claim C8 (counterexample): the reply `[["a", "b"], ["c", "d"]]`
normalizes successfully to a 2-by-2 grid, but the success message is the
fixed text `Table extracted successfully`, which contains neither the row
count nor the column count. -/
theorem c8_counterexample :
    (processResponse "[[\"a\", \"b\"], [\"c\", \"d\"]]").success = true
    ∧ (processResponse "[[\"a\", \"b\"], [\"c\", \"d\"]]").table_data
        = some (Json.arr [Json.arr [Json.str "a", Json.str "b"],
                          Json.arr [Json.str "c", Json.str "d"]])
    ∧ tableRows (Json.arr [Json.arr [Json.str "a", Json.str "b"],
                           Json.arr [Json.str "c", Json.str "d"]]) = 2
    ∧ strContains (processResponse "[[\"a\", \"b\"], [\"c\", \"d\"]]").message
        (toString (2 : Nat)) = false :=
  ⟨rfl, rfl, rfl, rfl⟩

/-- Claim C8 (amended): on normalizer success, extract returns
`success=true`, the extracted grid, and the fixed message
`Table extracted successfully` — without row or column counts. -/
theorem c8_amended (resp : String) (key : Option String) (v : Json)
    (h1 : pyJsonLoads (normalizeText resp) = some v)
    (h2 : isNonEmptyList v = true) :
    extract_table_from_image true key (AIOutcome.respond resp)
      = ⟨true, "Table extracted successfully", some v⟩ := by
  have hE : extract_table_from_image true key (AIOutcome.respond resp)
      = processResponse resp := rfl
  rw [hE]
  unfold processResponse
  rw [h1]
  simp [h2]

/-- Claim C8 (witness): the amended theorem at the reply `[[1]]`. -/
theorem c8_witness :
    extract_table_from_image true none (AIOutcome.respond "[[1]]")
      = ⟨true, "Table extracted successfully", some (Json.arr [Json.arr [Json.num 1]])⟩ :=
  c8_amended "[[1]]" none (Json.arr [Json.arr [Json.num 1]]) rfl rfl

/-- Claim C9 (confirmed): whenever the upload operation inserts a record
into the table store, extraction succeeded (the HTTP response is a
`ProcessingResult` with `success=true`) and the persisted
`extracted_data` is non-empty — the insert happens only in the
`result["success"]` branch, and success implies the validated table is a
non-empty list that the pydantic coercion maps to a non-empty string
grid. -/
theorem c9_insert_invariant (contentType filename : String)
    (emergentAvailable : Bool) (key : Option String) (ai : AIOutcome)
    (newId : String) (now : Nat) (rec : TableData)
    (h : (upload_image contentType filename emergentAvailable key ai newId now).inserted
          = some rec) :
    rec.extracted_data ≠ []
    ∧ ∃ pr, (upload_image contentType filename emergentAvailable key ai newId now).response
          = Except.ok pr ∧ pr.success = true := by
  rcases upload_image_spec contentType filename emergentAvailable key ai newId now with
    ⟨_, heq⟩ | ⟨_, hs, grid, hg, heq⟩ | ⟨_, _, _, heq⟩ | ⟨_, _, heq⟩
  · rw [heq] at h; exact Option.noConfusion h
  · rw [heq] at h ⊢
    obtain ⟨v, hv, hne⟩ := extract_success_table emergentAvailable key ai hs
    rw [hv] at hg
    simp only [Option.some_bind] at hg
    have hrec : rec = ⟨newId, filename, grid, now⟩ := by
      simpa using h.symm
    subst hrec
    exact ⟨gridStrings_nonempty v grid hne hg, _, rfl, rfl⟩
  · rw [heq] at h; exact Option.noConfusion h
  · rw [heq] at h; exact Option.noConfusion h

/-- Claim C9 (witness): the invariant theorem at a concrete mock-mode
upload, whose inserted record is the placeholder grid. -/
theorem c9_witness :
    (upload_image "image/png" "scan.png" false none (AIOutcome.respond "x")
        "id7" 9).inserted
      = some ⟨"id7", "scan.png",
              [["Name", "Age", "City"], ["John", "25", "NYC"], ["Alice", "30", "LA"]], 9⟩
    ∧ (⟨"id7", "scan.png",
        [["Name", "Age", "City"], ["John", "25", "NYC"], ["Alice", "30", "LA"]], 9⟩
          : TableData).extracted_data ≠ []
    ∧ ∃ pr, (upload_image "image/png" "scan.png" false none (AIOutcome.respond "x")
          "id7" 9).response = Except.ok pr ∧ pr.success = true := by
  refine ⟨rfl, ?_, ?_⟩
  · exact (c9_insert_invariant "image/png" "scan.png" false none (AIOutcome.respond "x")
      "id7" 9 ⟨"id7", "scan.png",
        [["Name", "Age", "City"], ["John", "25", "NYC"], ["Alice", "30", "LA"]], 9⟩ rfl).1
  · exact (c9_insert_invariant "image/png" "scan.png" false none (AIOutcome.respond "x")
      "id7" 9 ⟨"id7", "scan.png",
        [["Name", "Age", "City"], ["John", "25", "NYC"], ["Alice", "30", "LA"]], 9⟩ rfl).2

lemma rowFold_ne (row : List Json) (ri : Nat) (hdr : Bool) :
    ∀ (s : Nat) (f : WsCells) (r c : Nat), r ≠ ri →
      (((List.enumFrom s row).map (fun q => CellWrite.mk ri q.1 q.2 hdr)).foldl
          applyWrite f) r c = f r c := by
  induction row with
  | nil => intro s f r c _; simp [List.enumFrom_nil]
  | cons v rest ih =>
    intro s f r c hne
    rw [List.enumFrom_cons, List.map_cons, List.foldl_cons]
    rw [ih (s + 1) (applyWrite f (CellWrite.mk ri s v hdr)) r c hne]
    unfold applyWrite
    rw [if_neg]
    intro hcontra
    exact hne hcontra.1

lemma rowFold_own (row : List Json) (ri : Nat) (hdr : Bool) :
    ∀ (s : Nat) (f : WsCells) (c : Nat),
      (((List.enumFrom s row).map (fun q => CellWrite.mk ri q.1 q.2 hdr)).foldl
          applyWrite f) ri c
        = match (if s ≤ c then row.get? (c - s) else none) with
          | some v => some (WsCell.mk v true true hdr)
          | none => f ri c := by
  induction row with
  | nil =>
    intro s f c
    rw [List.enumFrom_nil, List.map_nil, List.foldl_nil]
    cases Nat.decLe s c with
    | isTrue h => simp [h]
    | isFalse h => simp [h]
  | cons v rest ih =>
    intro s f c
    rw [List.enumFrom_cons, List.map_cons, List.foldl_cons]
    rw [ih (s + 1) (applyWrite f (CellWrite.mk ri s v hdr)) c]
    rcases Nat.lt_trichotomy c s with hlt | heq | hgt
    · rw [if_neg (by omega), if_neg (by omega)]
      unfold applyWrite
      rw [if_neg (by intro hcontra; simp at hcontra; omega)]
    · subst heq
      rw [if_neg (by omega), if_pos (Nat.le_refl c)]
      have hz : c - c = 0 := by omega
      rw [hz, List.get?_cons_zero]
      unfold applyWrite
      rw [if_pos ⟨rfl, rfl⟩]
    · rw [if_pos (by omega), if_pos (by omega)]
      have hsub : c - s = (c - (s + 1)) + 1 := by omega
      rw [hsub, List.get?_cons_succ]
      cases rest.get? (c - (s + 1)) with
      | some w => rfl
      | none =>
        unfold applyWrite
        rw [if_neg (by intro hcontra; simp at hcontra; omega)]

lemma gridFold_at (g : List (List Json)) :
    ∀ (n : Nat) (f : WsCells) (r c : Nat), 1 ≤ c →
      (((List.enumFrom n g).flatMap (fun p =>
          (List.enumFrom 1 p.2).map (fun q => CellWrite.mk p.1 q.1 q.2 (p.1 == 1)))).foldl
          applyWrite f) r c
        = if n ≤ r then
            match (g.get? (r - n)).bind (fun row => row.get? (c - 1)) with
            | some v => some (WsCell.mk v true true (r == 1))
            | none => f r c
          else f r c := by
  induction g with
  | nil =>
    intro n f r c _
    rw [List.enumFrom_nil, List.flatMap_nil, List.foldl_nil]
    cases Nat.decLe n r with
    | isTrue h => simp [h]
    | isFalse h => simp [h]
  | cons row rest ih =>
    intro n f r c hc
    rw [List.enumFrom_cons, List.flatMap_cons, List.foldl_append]
    rw [ih (n + 1)
      (((List.enumFrom 1 row).map (fun q => CellWrite.mk n q.1 q.2 (n == 1))).foldl
        applyWrite f) r c hc]
    rcases Nat.lt_trichotomy r n with hlt | heq | hgt
    · rw [if_neg (by omega), if_neg (by omega)]
      exact rowFold_ne row n (n == 1) 1 f r c (by omega)
    · subst heq
      rw [if_neg (by omega), if_pos (Nat.le_refl r)]
      rw [rowFold_own row r (r == 1) 1 f c]
      have hz : r - r = 0 := by omega
      rw [hz, List.get?_cons_zero, if_pos hc]
      rfl
    · rw [if_pos (by omega), if_pos (by omega)]
      have hsub : r - n = (r - (n + 1)) + 1 := by omega
      rw [hsub, List.get?_cons_succ]
      cases hre : (rest.get? (r - (n + 1))).bind (fun row => row.get? (c - 1)) with
      | some w => rfl
      | none => exact rowFold_ne row n (n == 1) 1 f r c (by omega)

lemma buildCells_at (g : List (List Json)) (i j : Nat) :
    buildCells g (i + 1) (j + 1)
      = ((g.get? i).bind (fun row => row.get? j)).map
          (fun v => WsCell.mk v true true (i == 0)) := by
  unfold buildCells sheetWrites
  rw [gridFold_at g 1 emptyCells (i + 1) (j + 1) (by omega)]
  rw [if_pos (by omega)]
  have h1 : i + 1 - 1 = i := by omega
  have h2 : j + 1 - 1 = j := by omega
  have h3 : (i + 1 == 1) = (i == 0) := by cases i <;> rfl
  rw [h1, h2, h3]
  cases (g.get? i).bind (fun row => row.get? j) with
  | some v => rfl
  | none => rfl

/-- Rendering of the grid position behind worksheet cell `(r, c)` (1-based):
the `str()` of the stored value, or the four characters `None` when the
row is too short to reach column `c`. -/
def specRender (g : List (List Json)) (r c : Nat) : String :=
  match (g.get? (r - 1)).bind (fun row => row.get? (c - 1)) with
  | some v => pyStr v
  | none => "None"

lemma renderAt_buildCells (g : List (List Json)) (r c : Nat)
    (hr : 1 ≤ r) (hc : 1 ≤ c) :
    renderAt (buildCells g) r c = specRender g r c := by
  obtain ⟨i, rfl⟩ : ∃ i, r = i + 1 := ⟨r - 1, by omega⟩
  obtain ⟨j, rfl⟩ : ∃ j, c = j + 1 := ⟨c - 1, by omega⟩
  unfold renderAt specRender
  rw [buildCells_at]
  have h1 : i + 1 - 1 = i := by omega
  have h2 : j + 1 - 1 = j := by omega
  rw [h1, h2]
  cases (g.get? i).bind (fun row => row.get? j) with
  | some v => rfl
  | none => rfl

lemma foldl_ifgt (l : List Nat) :
    ∀ a, l.foldl (fun m x => if x > m then x else m) a = max a (l.foldr max 0) := by
  induction l with
  | nil => intro a; rw [List.foldl_nil, List.foldr_nil, Nat.max_zero]
  | cons x rest ih =>
    intro a
    rw [List.foldl_cons, List.foldr_cons, ih]
    have hstep : (if x > a then x else a) = max a x := by split <;> omega
    rw [hstep, Nat.max_assoc]

lemma colMaxLenLoop_eq (cells : WsCells) (rlo rhi c : Nat) :
    colMaxLenLoop cells rlo rhi c
      = ((List.range' rlo (rhi + 1 - rlo)).map
          (fun r => (renderAt cells r c).length)).foldr max 0 := by
  unfold colMaxLenLoop
  rw [← List.foldl_map (fun r => (renderAt cells r c).length)
    (fun m x => if x > m then x else m)]
  rw [foldl_ifgt, Nat.zero_max]

lemma minRow_pos (g : List (List Json)) : 1 ≤ minRow g := by
  unfold minRow
  cases g.findIdx? (fun row => !row.isEmpty) with
  | some i => simp
  | none => simp

/-- String grid re-entering the builder as JSON string cells (the shape
of every persisted record's `extracted_data`). -/
def toJsonGrid (g : List (List String)) : List (List Json) :=
  g.map (fun row => row.map Json.str)

/-- Column count of a rectangular grid: the length of its first row. -/
def ncolsOf (g : List (List String)) : Nat :=
  (g.head?.map List.length).getD 0

/-- Reading a cell back from the produced workbook: the stored string of
a string-valued cell. -/
def readCellValue (ws : Worksheet) (r c : Nat) : Option String :=
  match ws.cells r c with
  | some cell => cellString cell.value
  | none => none

/-- Admissible cell string: no XML-illegal character and at most 32767
characters, so the binder stores it unchanged. -/
def strLegal (s : String) : Bool :=
  !(s.toList.any isXmlIllegal) && Nat.ble s.toList.length 32767

/-- Admissible cell value: `None`, a boolean, an integer, or an
admissible string.  List and dict values are never admissible (the
binder raises on them); floating-point cells are left outside the
admissible fragment because their rendered width depends on float
formatting, which this development does not model. -/
def cellLegal : Json → Bool
  | Json.str s => strLegal s
  | Json.arr _ => false
  | Json.obj _ => false
  | Json.fnum _ => false
  | _ => true

lemma string_mk_toList (s : String) : (⟨s.toList⟩ : String) = s := by
  cases s
  rfl

lemma bindValue_ok_of_legal (v : Json) (h : cellLegal v = true) :
    bindValue v = Except.ok v := by
  cases v with
  | str s =>
    rw [show cellLegal (Json.str s) = strLegal s from rfl] at h
    unfold strLegal at h
    rw [Bool.and_eq_true] at h
    obtain ⟨h1, h2⟩ := h
    rw [Bool.not_eq_true'] at h1
    show (checkString s).map Json.str = Except.ok (Json.str s)
    unfold checkString
    rw [if_neg (by rw [h1]; exact Bool.false_ne_true)]
    rw [List.take_of_length_le (Nat.le_of_ble_eq_true h2)]
    rw [string_mk_toList]
    rfl
  | arr l => simp [cellLegal] at h
  | obj l => simp [cellLegal] at h
  | null => rfl
  | bool b => rfl
  | num n => rfl
  | fnum raw => rfl

lemma snd_mem_enumFrom {α : Type} :
    ∀ (l : List α) (n : Nat) (p : Nat × α), p ∈ List.enumFrom n l → p.2 ∈ l := by
  intro l
  induction l with
  | nil => intro n p h; rw [List.enumFrom_nil] at h; cases h
  | cons a rest ih =>
    intro n p h
    rw [List.enumFrom_cons] at h
    rcases List.mem_cons.mp h with rfl | h2
    · exact List.mem_cons_self a rest
    · exact List.mem_cons_of_mem a (ih (n + 1) p h2)

lemma writeAll_ok : ∀ (ws : List CellWrite) (f : WsCells),
    (∀ w ∈ ws, bindValue w.value = Except.ok w.value) →
    writeAll f ws = Except.ok (ws.foldl applyWrite f) := by
  intro ws
  induction ws with
  | nil => intro f _; rfl
  | cons w rest ih =>
    intro f h
    have hw := h w (List.mem_cons_self _ _)
    unfold writeAll
    rw [hw, List.foldl_cons]
    show writeAll (applyWrite f w) rest
        = Except.ok (List.foldl applyWrite (applyWrite f w) rest)
    exact ih _ (fun w2 hw2 => h w2 (List.mem_cons_of_mem _ hw2))

lemma buildCellsE_ok (g : List (List Json))
    (h : ∀ row ∈ g, ∀ v ∈ row, cellLegal v = true) :
    buildCellsE g = Except.ok (buildCells g) := by
  unfold buildCellsE buildCells
  apply writeAll_ok
  intro w hw
  unfold sheetWrites at hw
  rw [List.mem_flatMap] at hw
  obtain ⟨p, hp, hw2⟩ := hw
  rw [List.mem_map] at hw2
  obtain ⟨q, hq, rfl⟩ := hw2
  exact bindValue_ok_of_legal q.2
    (h p.2 (snd_mem_enumFrom g 1 p hp) q.2 (snd_mem_enumFrom p.2 1 q hq))

/-- The worksheet `create_excel_file` produces when every cell value
binds successfully. -/
def wsOf (table_data : List (List Json)) : Worksheet where
  title := "Extracted Table"
  cells := buildCells table_data
  widths := fun c =>
    if 1 ≤ c ∧ c ≤ maxCol table_data then
      some (min (colMaxLenLoop (buildCells table_data) (minRow table_data)
        (maxRow table_data) c + 2) 50)
    else none

lemma create_excel_file_ok (table_data : List (List Json)) (filename : String)
    (hleg : ∀ row ∈ table_data, ∀ v ∈ row, cellLegal v = true) :
    create_excel_file table_data filename = Except.ok (wsOf table_data) := by
  unfold create_excel_file wsOf
  rw [buildCellsE_ok _ hleg]
  rfl

/-- Claim C2 (counterexample): at the non-empty rectangular grid
`[["\x00"]]` the builder does not produce a workbook at all — the cell
binder raises `IllegalCharacterError` on the XML-illegal character, with
no handler around the write loop — so the round-trip fails for this
grid. -/
theorem c2_counterexample :
    create_excel_file (toJsonGrid [["\x00"]]) "scan.png"
      = Except.error PyError.illegalCharacter
    ∧ ∀ ws, create_excel_file (toJsonGrid [["\x00"]]) "scan.png" ≠ Except.ok ws := by
  refine ⟨rfl, fun ws h => ?_⟩
  rw [show create_excel_file (toJsonGrid [["\x00"]]) "scan.png"
      = Except.error PyError.illegalCharacter from rfl] at h
  exact Except.noConfusion h

/-- Claim C2 (amended): for a non-empty rectangular string grid whose
cells contain no XML-illegal control characters and are at most 32767
characters, the builder succeeds and reading the workbook back yields
the same string at every row/column position. -/
theorem c2_roundtrip (g : List (List String)) (filename : String)
    (h1 : g ≠ []) (h2 : ∀ row ∈ g, row.length = ncolsOf g)
    (h3 : ∀ row ∈ g, ∀ s ∈ row, strLegal s = true) :
    ∃ ws, create_excel_file (toJsonGrid g) filename = Except.ok ws
      ∧ ∀ i j, i < g.length → j < ncolsOf g →
          readCellValue ws (i + 1) (j + 1)
            = (g.get? i).bind (fun row => row.get? j) := by
  have hleg : ∀ row ∈ toJsonGrid g, ∀ v ∈ row, cellLegal v = true := by
    intro row hrow v hv
    unfold toJsonGrid at hrow
    rw [List.mem_map] at hrow
    obtain ⟨row0, hrow0, rfl⟩ := hrow
    rw [List.mem_map] at hv
    obtain ⟨s, hs, rfl⟩ := hv
    exact h3 row0 hrow0 s hs
  refine ⟨wsOf (toJsonGrid g), create_excel_file_ok _ _ hleg, ?_⟩
  intro i j hi hj
  cases hrow : g.get? i with
  | none =>
    exact absurd (List.get?_eq_none.mp hrow) (by omega)
  | some row =>
    have hlen : row.length = ncolsOf g := h2 row (List.get?_mem hrow)
    cases hcell : row.get? j with
    | none =>
      exact absurd (List.get?_eq_none.mp hcell) (by omega)
    | some val =>
      have hmap : (toJsonGrid g).get? i = some (row.map Json.str) := by
        unfold toJsonGrid
        rw [List.get?_map, hrow]
        rfl
      have hmc : (row.map Json.str).get? j = some (Json.str val) := by
        rw [List.get?_map, hcell]
        rfl
      unfold readCellValue
      rw [show (wsOf (toJsonGrid g)).cells = buildCells (toJsonGrid g) from rfl]
      rw [buildCells_at, hmap]
      simp only [Option.some_bind]
      rw [hmc, hcell]
      rfl

/-- Claim C2 (witness): the amended theorem at the concrete 2-by-2 grid
of the end-to-end example, plus a directly evaluated read-back of one
cell of the built workbook. -/
theorem c2_witness :
    (([["Name", "Age"], ["Jo", "1"]] : List (List String)) ≠ [])
    ∧ (∀ row ∈ ([["Name", "Age"], ["Jo", "1"]] : List (List String)),
        row.length = ncolsOf [["Name", "Age"], ["Jo", "1"]])
    ∧ (∀ row ∈ ([["Name", "Age"], ["Jo", "1"]] : List (List String)),
        ∀ s ∈ row, strLegal s = true)
    ∧ (∃ ws, create_excel_file (toJsonGrid [["Name", "Age"], ["Jo", "1"]]) "t.png"
          = Except.ok ws
        ∧ ∀ i j, i < ([["Name", "Age"], ["Jo", "1"]] : List (List String)).length →
            j < ncolsOf [["Name", "Age"], ["Jo", "1"]] →
            readCellValue ws (i + 1) (j + 1)
              = ([["Name", "Age"], ["Jo", "1"]].get? i).bind (fun row => row.get? j))
    ∧ (create_excel_file (toJsonGrid [["Name", "Age"], ["Jo", "1"]]) "t.png").map
        (fun ws => readCellValue ws 2 2) = Except.ok (some "1") :=
  ⟨by decide, by decide, by decide,
    c2_roundtrip [["Name", "Age"], ["Jo", "1"]] "t.png" (by decide) (by decide) (by decide),
    rfl⟩

/-- Claim C10 (counterexample): at the non-empty grid `[[[]]]` — whose
single cell is itself a list, one of the non-string cell values the
claim includes — the builder raises `ValueError` (`Cannot convert ... to
Excel`) instead of returning a spreadsheet buffer. -/
theorem c10_counterexample :
    create_excel_file [[Json.arr []]] "scan.png" = Except.error PyError.cannotConvert
    ∧ ∀ ws, create_excel_file [[Json.arr []]] "scan.png" ≠ Except.ok ws := by
  refine ⟨rfl, fun ws h => ?_⟩
  rw [show create_excel_file [[Json.arr []]] "scan.png"
      = Except.error PyError.cannotConvert from rfl] at h
  exact Except.noConfusion h

/-- Claim C10 (amended): for every non-empty grid — jagged rows allowed —
whose cells are admissible scalars (`None`, booleans, numbers, or
XML-legal strings of at most 32767 characters), `create_excel_file`
returns the complete worksheet without raising: every grid cell is
stored with border, centering and header styling exactly on row 1, and
every populated column gets width `min(max_length + 2, 50)`, where
`max_length` is the longest rendered (`str()`) value among the column's
cells over the populated row range, a position not covered by its
(short) row rendering as `None`.  List or dict cells and illegal-character
strings instead make the cell binder raise. -/
theorem c10_safety_widths (table_data : List (List Json)) (filename : String)
    (h : table_data ≠ [])
    (hleg : ∀ row ∈ table_data, ∀ v ∈ row, cellLegal v = true) :
    ∃ ws, create_excel_file table_data filename = Except.ok ws
      ∧ (∀ i j v, (table_data.get? i).bind (fun row => row.get? j) = some v →
          ws.cells (i + 1) (j + 1) = some (WsCell.mk v true true (i == 0)))
      ∧ (∀ c, 1 ≤ c → c ≤ maxCol table_data →
          ws.widths c
            = some (min
                ((((List.range' (minRow table_data)
                    (maxRow table_data + 1 - minRow table_data)).map
                    (fun r => (specRender table_data r c).length)).foldr max 0) + 2)
                50)) := by
  refine ⟨wsOf table_data, create_excel_file_ok _ _ hleg, ?_, ?_⟩
  · intro i j v hv
    show buildCells table_data (i + 1) (j + 1) = _
    rw [buildCells_at, hv]
    rfl
  · intro c hc1 hc2
    show (if 1 ≤ c ∧ c ≤ maxCol table_data then
        some (min (colMaxLenLoop (buildCells table_data) (minRow table_data)
          (maxRow table_data) c + 2) 50)
      else none) = _
    rw [if_pos ⟨hc1, hc2⟩, colMaxLenLoop_eq]
    have hmap : (List.range' (minRow table_data)
        (maxRow table_data + 1 - minRow table_data)).map
          (fun r => (renderAt (buildCells table_data) r c).length)
        = (List.range' (minRow table_data)
            (maxRow table_data + 1 - minRow table_data)).map
            (fun r => (specRender table_data r c).length) := by
      apply List.map_congr_left
      intro r hr
      have hr1 : minRow table_data ≤ r := (List.mem_range'_1.mp hr).1
      have hr2 : 1 ≤ r := le_trans (minRow_pos table_data) hr1
      rw [renderAt_buildCells table_data r c hr2 hc1]
    rw [hmap]

/-- Claim C10 (witness): the amended theorem at a jagged grid with
admissible non-string cells, plus the directly evaluated widths of the
built worksheet — column 2 exists only in row 2, so row 1 contributes
the rendering `None` (length 4) and the width is `4 + 2`. -/
theorem c10_witness :
    (([[Json.str "ab"], [Json.num 5, Json.null]] : List (List Json)) ≠ [])
    ∧ (∀ row ∈ ([[Json.str "ab"], [Json.num 5, Json.null]] : List (List Json)),
        ∀ v ∈ row, cellLegal v = true)
    ∧ (∃ ws, create_excel_file [[Json.str "ab"], [Json.num 5, Json.null]] "scan"
          = Except.ok ws
        ∧ (∀ i j v,
            (([[Json.str "ab"], [Json.num 5, Json.null]] : List (List Json)).get? i).bind
                (fun row => row.get? j) = some v →
            ws.cells (i + 1) (j + 1) = some (WsCell.mk v true true (i == 0)))
        ∧ (∀ c, 1 ≤ c → c ≤ maxCol [[Json.str "ab"], [Json.num 5, Json.null]] →
            ws.widths c
              = some (min
                  ((((List.range' (minRow [[Json.str "ab"], [Json.num 5, Json.null]])
                      (maxRow [[Json.str "ab"], [Json.num 5, Json.null]] + 1
                        - minRow [[Json.str "ab"], [Json.num 5, Json.null]])).map
                      (fun r => (specRender [[Json.str "ab"], [Json.num 5, Json.null]]
                        r c).length)).foldr max 0) + 2)
                  50)))
    ∧ (create_excel_file [[Json.str "ab"], [Json.num 5, Json.null]] "scan").map
        (fun ws => ws.widths 1) = Except.ok (some 4)
    ∧ (create_excel_file [[Json.str "ab"], [Json.num 5, Json.null]] "scan").map
        (fun ws => ws.widths 2) = Except.ok (some 6) :=
  ⟨List.cons_ne_nil _ _, by decide,
    c10_safety_widths [[Json.str "ab"], [Json.num 5, Json.null]] "scan"
      (List.cons_ne_nil _ _) (by decide),
    rfl, rfl⟩

lemma lstripBy_all_append (p : Char → Bool) (pre l : List Char)
    (h : ∀ c ∈ pre, p c = true) : lstripBy p (pre ++ l) = lstripBy p l := by
  induction pre with
  | nil => rfl
  | cons a rest ih =>
    rw [List.cons_append]
    have ha : p a = true := h a (List.mem_cons_self a rest)
    show List.dropWhile p (a :: (rest ++ l)) = lstripBy p l
    rw [List.dropWhile_cons, if_pos ha]
    exact ih (fun c hc => h c (List.mem_cons_of_mem a hc))

lemma lstripBy_cons_stop (p : Char → Bool) (a : Char) (l : List Char)
    (ha : p a = false) : lstripBy p (a :: l) = a :: l := by
  show List.dropWhile p (a :: l) = a :: l
  rw [List.dropWhile_cons, if_neg (by rw [ha]; exact Bool.false_ne_true)]

lemma stripBy_sandwich (p : Char → Bool) (a b : Char) (l pre suf : List Char)
    (hpre : ∀ c ∈ pre, p c = true) (hsuf : ∀ c ∈ suf, p c = true)
    (ha : p a = false) (hb : p b = false) :
    stripBy p (pre ++ (a :: (l ++ [b])) ++ suf) = a :: (l ++ [b]) := by
  unfold stripBy
  have h1 : lstripBy p (pre ++ (a :: (l ++ [b])) ++ suf)
      = a :: ((l ++ [b]) ++ suf) := by
    rw [List.append_assoc, lstripBy_all_append p pre _ hpre]
    rw [show (a :: (l ++ [b])) ++ suf = a :: ((l ++ [b]) ++ suf) from rfl]
    exact lstripBy_cons_stop p a _ ha
  rw [h1]
  show (List.dropWhile p (a :: ((l ++ [b]) ++ suf)).reverse).reverse = a :: (l ++ [b])
  have h2 : (a :: ((l ++ [b]) ++ suf)).reverse
      = suf.reverse ++ (b :: (l.reverse ++ [a])) := by
    simp [List.reverse_cons, List.reverse_append, List.append_assoc]
  rw [h2]
  have h3 : List.dropWhile p (suf.reverse ++ (b :: (l.reverse ++ [a])))
      = b :: (l.reverse ++ [a]) := by
    have h4 := lstripBy_all_append p suf.reverse (b :: (l.reverse ++ [a]))
      (fun c hc => hsuf c (List.mem_reverse.mp hc))
    rw [show lstripBy p (suf.reverse ++ (b :: (l.reverse ++ [a])))
        = List.dropWhile p (suf.reverse ++ (b :: (l.reverse ++ [a]))) from rfl] at h4
    rw [h4]
    exact lstripBy_cons_stop p b _ hb
  rw [h3]
  simp [List.reverse_cons, List.reverse_append]

lemma stripBy_keep (p : Char → Bool) (a b : Char) (l : List Char)
    (ha : p a = false) (hb : p b = false) :
    stripBy p (a :: (l ++ [b])) = a :: (l ++ [b]) := by
  have h := stripBy_sandwich p a b l [] [] (by simp) (by simp) ha hb
  simpa using h

lemma jsonDumpsGrid_toList (g : List (List String)) :
    ∃ mid, (jsonDumpsGrid g).toList = '[' :: (mid ++ [ ']' ]) := by
  refine ⟨(", ".intercalate (g.map jsonDumpsRow)).toList, ?_⟩
  unfold jsonDumpsGrid
  rw [toList_append, toList_append]
  rw [show ("[" : String).toList = [ '[' ] from rfl]
  rw [show ("]" : String).toList = [ ']' ] from rfl]
  simp [List.cons_append, List.append_assoc]

lemma normalizeText_bracketed (t : String) (mid : List Char)
    (ht : t.toList = '[' :: (mid ++ [ ']' ])) : normalizeText t = t.toList := by
  simp only [normalizeText]
  rw [ht]
  have h1 : pyStripWs ('[' :: (mid ++ [ ']' ])) = '[' :: (mid ++ [ ']' ]) :=
    stripBy_keep isPyWs '[' ']' mid rfl rfl
  rw [h1]
  have h2 : isPre [ '`', '`', '`' ] ('[' :: (mid ++ [ ']' ])) = false := rfl
  rw [h2, if_neg Bool.false_ne_true]
  exact h1

lemma normalizeText_fenced (t : String) (mid tag : List Char) (s : String)
    (ht : t.toList = '[' :: (mid ++ [ ']' ]))
    (htag : ∀ c ∈ tag, fenceChars.contains c = true)
    (hs : s.toList
      = '`' :: '`' :: '`' :: (tag ++ '\n' :: (t.toList ++ '\n' :: '`' :: '`' :: [ '`' ]))) :
    normalizeText s = t.toList := by
  simp only [normalizeText]
  rw [hs, ht]
  have hsh1 : '`' :: '`' :: '`'
        :: (tag ++ '\n' :: (('[' :: (mid ++ [ ']' ])) ++ '\n' :: '`' :: '`' :: [ '`' ]))
      = '`' :: (('`' :: '`'
          :: (tag ++ '\n' :: (('[' :: (mid ++ [ ']' ])) ++ [ '\n', '`', '`' ]))) ++ [ '`' ]) := by
    simp [List.cons_append, List.append_assoc]
  have hA : pyStripWs ('`' :: '`' :: '`'
        :: (tag ++ '\n' :: (('[' :: (mid ++ [ ']' ])) ++ '\n' :: '`' :: '`' :: [ '`' ])))
      = '`' :: '`' :: '`'
        :: (tag ++ '\n' :: (('[' :: (mid ++ [ ']' ])) ++ '\n' :: '`' :: '`' :: [ '`' ])) := by
    rw [hsh1]
    exact stripBy_keep isPyWs '`' '`' _ rfl rfl
  rw [hA]
  have hB : isPre [ '`', '`', '`' ] ('`' :: '`' :: '`'
      :: (tag ++ '\n' :: (('[' :: (mid ++ [ ']' ])) ++ '\n' :: '`' :: '`' :: [ '`' ])))
      = true := rfl
  rw [hB, if_pos rfl]
  have hsh2 : '`' :: '`' :: '`'
        :: (tag ++ '\n' :: (('[' :: (mid ++ [ ']' ])) ++ '\n' :: '`' :: '`' :: [ '`' ]))
      = ('`' :: '`' :: '`' :: tag)
          ++ ('\n' :: (('[' :: (mid ++ [ ']' ])) ++ [ '\n' ])) ++ [ '`', '`', '`' ] := by
    simp [List.cons_append, List.append_assoc]
  have hC : pyStripChars fenceChars ('`' :: '`' :: '`'
        :: (tag ++ '\n' :: (('[' :: (mid ++ [ ']' ])) ++ '\n' :: '`' :: '`' :: [ '`' ])))
      = '\n' :: (('[' :: (mid ++ [ ']' ])) ++ [ '\n' ]) := by
    rw [hsh2]
    refine stripBy_sandwich (fun c => fenceChars.contains c) '\n' '\n'
      ('[' :: (mid ++ [ ']' ])) ('`' :: '`' :: '`' :: tag) [ '`', '`', '`' ]
      ?_ (by decide) rfl rfl
    intro c hc
    rcases List.mem_cons.mp hc with rfl | hc
    · rfl
    rcases List.mem_cons.mp hc with rfl | hc
    · rfl
    rcases List.mem_cons.mp hc with rfl | hc
    · rfl
    exact htag c hc
  rw [hC]
  have hD : pyStripChars [ '`' ] ('\n' :: (('[' :: (mid ++ [ ']' ])) ++ [ '\n' ]))
      = '\n' :: (('[' :: (mid ++ [ ']' ])) ++ [ '\n' ]) :=
    stripBy_keep (fun c => [ '`' ].contains c) '\n' '\n' _ rfl rfl
  rw [hD]
  have hsh3 : '\n' :: (('[' :: (mid ++ [ ']' ])) ++ [ '\n' ])
      = [ '\n' ] ++ ('[' :: (mid ++ [ ']' ])) ++ [ '\n' ] := by
    simp [List.cons_append, List.append_assoc]
  rw [hsh3]
  exact stripBy_sandwich isPyWs '[' ']' mid [ '\n' ] [ '\n' ]
    (by decide) (by decide) rfl rfl

lemma wrapTagged_toList (t : String) :
    (wrapTagged t).toList
      = '`' :: '`' :: '`'
          :: ([ 'j', 's', 'o', 'n' ] ++ '\n' :: (t.toList ++ '\n' :: '`' :: '`' :: [ '`' ])) := by
  unfold wrapTagged
  rw [toList_append, toList_append]
  rw [show ("```json\n" : String).toList
      = [ '`', '`', '`', 'j', 's', 'o', 'n', '\n' ] from rfl]
  rw [show ("\n```" : String).toList = [ '\n', '`', '`', '`' ] from rfl]
  simp [List.cons_append, List.append_assoc]

lemma wrapBare_toList (t : String) :
    (wrapBare t).toList
      = '`' :: '`' :: '`'
          :: (([] : List Char) ++ '\n' :: (t.toList ++ '\n' :: '`' :: '`' :: [ '`' ])) := by
  unfold wrapBare
  rw [toList_append, toList_append]
  rw [show ("```\n" : String).toList = [ '`', '`', '`', '\n' ] from rfl]
  rw [show ("\n```" : String).toList = [ '\n', '`', '`', '`' ] from rfl]
  simp [List.cons_append, List.append_assoc]

/-- Claim C3 (confirmed): for every grid, the response normalizer gives
the same result on the grid's JSON text wrapped in a fenced code block —
language-tagged or bare — as on the unwrapped JSON text: the whole
extraction outcome, grid included, coincides.  The newline after the
opening fence and the bracket delimiters of the JSON text stop the
character-set strip, so exactly the fence markers are removed. -/
theorem c3_fence_equivalence (g : List (List String)) :
    processResponse (wrapTagged (jsonDumpsGrid g)) = processResponse (jsonDumpsGrid g)
    ∧ processResponse (wrapBare (jsonDumpsGrid g)) = processResponse (jsonDumpsGrid g) := by
  obtain ⟨mid, hmid⟩ := jsonDumpsGrid_toList g
  have hplain : normalizeText (jsonDumpsGrid g) = (jsonDumpsGrid g).toList :=
    normalizeText_bracketed _ mid hmid
  have htagged : normalizeText (wrapTagged (jsonDumpsGrid g)) = (jsonDumpsGrid g).toList :=
    normalizeText_fenced (jsonDumpsGrid g) mid [ 'j', 's', 'o', 'n' ] _ hmid
      (by decide) (wrapTagged_toList _)
  have hbare : normalizeText (wrapBare (jsonDumpsGrid g)) = (jsonDumpsGrid g).toList :=
    normalizeText_fenced (jsonDumpsGrid g) mid [] _ hmid
      (by intro c hc; cases hc) (wrapBare_toList _)
  constructor
  · unfold processResponse
    rw [htagged, hplain]
  · unfold processResponse
    rw [hbare, hplain]
